import Mathlib

/-!
Verification development for the "soulmate" social application of this
repository.  The JavaScript sources are shallowly embedded as Lean
definitions:

* `src/unnamed/part_003` — the Express server: `analyzeSentiment`,
  `extractKeywords`, the `/api/users/register`, `/api/users/login` and
  `/api/moments/create` routes;
* `src/soulmate-agent-102144/backend/server/routes/assistant.js` — the
  `/api/assistant/generate`, `/api/assistant/suggest` and
  `/api/profile/analyze` routes together with their keyword fallback
  helpers `extractInterests`, `analyzeValues`, `generatePersonalityVector`
  and `calculateMatchScore`;
* `src/soulmate-agent-102144/backend/server/database/postgres.js` — the
  row stores behind `userOperations`, `momentOperations` and
  `soulProfileOperations`.

External effects are embedded as explicit inputs: the outcome of the
HTTP call to the AI model is a value of an `Option`/`Except` type, the
`uuidv4` generator is a supply `Nat → String`, `JSON.parse` on the
extracted fragment is an oracle function passed to the route, and the
PostgreSQL tables are lists of rows.  Numbers are `Nat`/`Int`/`ℚ`;
JavaScript strings are Lean `String`s viewed as lists of characters.
-/

/- ===================== JavaScript string primitives ===================== -/

/-- `startsWithChars needle hay` is true when `needle` is an initial
segment of `hay`; the character-list core of JavaScript `startsWith`. -/
def startsWithChars : List Char → List Char → Bool
  | [], _ => true
  | _ :: _, [] => false
  | a :: as, b :: bs => a == b && startsWithChars as bs

/-- `hasSubstrChars needle hay` is true when `needle` occurs contiguously
inside `hay`; the character-list core of JavaScript `String.prototype.includes`. -/
def hasSubstrChars (needle : List Char) : List Char → Bool
  | [] => needle.isEmpty
  | b :: bs => startsWithChars needle (b :: bs) || hasSubstrChars needle bs

/-- JavaScript `s.includes(t)`. -/
def jsIncludes (s t : String) : Bool :=
  hasSubstrChars t.toList s.toList

/-- JavaScript `s || d` for strings: the empty string is falsy. -/
def jsOrStr (o : Option String) (d : String) : String :=
  match o with
  | none => d
  | some s => if s = "" then d else s

/-- JavaScript truthiness test for an optional string request field:
`!x` holds when the field is absent or the empty string. -/
def jsStrFalsy (o : Option String) : Bool :=
  match o with
  | none => true
  | some s => s == ""

/-- `Array.prototype.map` when the callback draws a fresh value per
element (such as `item => ({ id: uuidv4(), ...item })`): a map that also
passes the running index to the callback. -/
def jsMapWithIndex (f : Nat → α → β) : Nat → List α → List β
  | _, [] => []
  | i, a :: as => f i a :: jsMapWithIndex f (i + 1) as

theorem mem_jsMapWithIndex {f : Nat → α → β} {b : β} :
    ∀ {i : Nat} {l : List α}, b ∈ jsMapWithIndex f i l → ∃ k a, a ∈ l ∧ b = f k a := by
  intro i l
  induction l generalizing i with
  | nil => intro h; simp [jsMapWithIndex] at h
  | cons a as ih =>
    intro h
    rw [jsMapWithIndex] at h
    rcases List.mem_cons.mp h with h1 | h2
    · exact ⟨i, a, List.mem_cons_self a as, h1⟩
    · obtain ⟨k, a', ha', hb⟩ := ih h2
      exact ⟨k, a', List.mem_cons_of_mem a ha', hb⟩

theorem startsWithChars_append (c r : List Char) :
    startsWithChars c (c ++ r) = true := by
  induction c with
  | nil => rfl
  | cons a as ih => simp [startsWithChars, ih]

theorem hasSubstrChars_append_mid (p c s : List Char) :
    hasSubstrChars c (p ++ (c ++ s)) = true := by
  induction p with
  | nil =>
    show hasSubstrChars c (c ++ s) = true
    cases h : c ++ s with
    | nil =>
      have hc : c = [] := by
        cases c with
        | nil => rfl
        | cons a as => simp at h
      simp [hasSubstrChars, hc]
    | cons b bs =>
      rw [hasSubstrChars, ← h, startsWithChars_append]
      simp
  | cons a as ih =>
    simp only [List.cons_append, hasSubstrChars]
    rw [show as ++ (c ++ s) = as.append (c ++ s) from rfl] at ih
    rw [ih]
    simp

theorem toList_append (a b : String) : (a ++ b).toList = a.toList ++ b.toList := by
  cases a; cases b; rfl

/-- A string built by surrounding `c` with a prefix and a suffix always
contains `c`, so JavaScript `(p + c + s).includes(c)` is true. -/
theorem jsIncludes_surround (p c s : String) :
    jsIncludes (p ++ c ++ s) c = true := by
  unfold jsIncludes
  rw [toList_append, toList_append, List.append_assoc]
  exact hasSubstrChars_append_mid _ _ _

/- ===================== part_003: sentiment and keywords ===================== -/

/-- The positive dictionary of `analyzeSentiment` in `src/unnamed/part_003`. -/
def positiveWords : List String :=
  ["开心", "快乐", "美好", "幸福", "喜欢", "爱", "棒", "好"]

/-- The negative dictionary of `analyzeSentiment` in `src/unnamed/part_003`. -/
def negativeWords : List String :=
  ["难过", "伤心", "孤独", "失落", "遗憾", "痛", "累"]

/-- `analyzeSentiment` from `src/unnamed/part_003`: starts a score at 0,
adds 1 for every positive dictionary word contained in the text,
subtracts 1 for every negative dictionary word contained in the text, and
classifies by the sign of the final score. -/
def analyzeSentiment (text : String) : String :=
  let score : Int := 0
  let score := positiveWords.foldl
    (fun s w => if jsIncludes text w then s + 1 else s) score
  let score := negativeWords.foldl
    (fun s w => if jsIncludes text w then s - 1 else s) score
  if score > 0 then "positive"
  else if score < 0 then "negative"
  else "neutral"

/-- The interest dictionary of `extractKeywords` in `src/unnamed/part_003`. -/
def interestWords : List String :=
  ["音乐", "电影", "书", "旅行", "美食", "运动", "科技", "艺术", "哲学", "摄影"]

/-- `extractKeywords` from `src/unnamed/part_003`: collects the dictionary
words contained in the text and keeps at most the first five. -/
def extractKeywords (text : String) : List String :=
  let keywords := interestWords.foldl
    (fun acc w => if jsIncludes text w then acc ++ [w] else acc) []
  keywords.take 5

/-- A row of the `moments` table (`postgres.js`).  `created_at` is an
abstract timestamp used only for ordering. -/
structure MomentRow where
  id : String
  user_id : String
  content : String
  content_type : String
  sentiment : String
  keywords : List String
  created_at : Nat
deriving Repr, DecidableEq

/-- The `POST /api/moments/create` route of `src/unnamed/part_003`.
Returns the HTTP status together with the row handed to
`momentOperations.create` (`none` when validation fails and nothing is
stored).  `newId` stands for the generated `uuidv4()`, `now` for the
database timestamp. -/
def momentsCreateRoute (userId content contentType : Option String)
    (newId : String) (now : Nat) : Nat × Option MomentRow :=
  if jsStrFalsy userId || jsStrFalsy content then (400, none)
  else
    (200, some
      { id := newId
        user_id := userId.getD ""
        content := content.getD ""
        content_type := jsOrStr contentType "text"
        sentiment := analyzeSentiment (content.getD "")
        keywords := extractKeywords (content.getD "")
        created_at := now })

/- ===================== part_003: user registration and login ===================== -/

/-- A row of the `users` table (`postgres.js`). -/
structure UserRow where
  id : String
  username : String
  password : String
  avatar : String
  bio : String
deriving Repr, DecidableEq

/-- `userOperations.findByUsername`: `SELECT * FROM users WHERE username = $1`,
returning the first matching row. -/
def findByUsername (users : List UserRow) (username : String) : Option UserRow :=
  users.find? (fun u => u.username == username)

/-- The default bio `'这个人很神秘，还没有填写简介...'` given to a new user. -/
def defaultBio : String := "这个人很神秘，还没有填写简介..."

/-- The avatar URL template for a new user. -/
def avatarUrl (userId : String) : String :=
  "https://api.dicebear.com/7.x/avataaars/svg?seed=" ++ userId

/-- The `POST /api/users/register` route of `src/unnamed/part_003`.
`bhash` stands for `bcrypt.hashSync(·, 10)` and `newId` for `uuidv4()`.
Returns the HTTP status, the `(userId, username)` payload on success and
the resulting `users` table. -/
def registerRoute (users : List UserRow) (username password : Option String)
    (newId : String) (bhash : String → String) :
    Nat × Option (String × String) × List UserRow :=
  if jsStrFalsy username || jsStrFalsy password then (400, none, users)
  else
    let u := username.getD ""
    let p := password.getD ""
    match findByUsername users u with
    | some _ => (409, none, users)
    | none =>
      (200, some (newId, u),
        users ++ [{ id := newId, username := u, password := bhash p
                    avatar := avatarUrl newId, bio := defaultBio }])

/-- The success payload of `POST /api/users/login`. -/
structure LoginData where
  userId : String
  username : String
  avatar : String
  bio : String
deriving Repr, DecidableEq

/-- The `POST /api/users/login` route of `src/unnamed/part_003`.
`bcompare` stands for `bcrypt.compareSync`. -/
def loginRoute (users : List UserRow) (username password : Option String)
    (bcompare : String → String → Bool) : Nat × Option LoginData :=
  if jsStrFalsy username || jsStrFalsy password then (400, none)
  else
    let u := username.getD ""
    let p := password.getD ""
    match findByUsername users u with
    | none => (404, none)
    | some user =>
      if bcompare p user.password then
        (200, some { userId := user.id, username := user.username
                     avatar := user.avatar, bio := user.bio })
      else (401, none)

/- ===================== assistant.js: POST /api/assistant/generate ===================== -/

/-- A pair of bracket positions `(i, j)` such that the pattern
`\[[\s\S]*\]` can match the fragment from `i` to `j`: the character at
`i` is `'['`, the character at `j` is `']'` and `i < j`. -/
def bracketCandidates (cs : List Char) : List (Nat × Nat) :=
  (List.range cs.length).flatMap (fun i =>
    (List.range cs.length).filterMap (fun j =>
      if cs.get? i = some '[' ∧ cs.get? j = some ']' ∧ i < j then some (i, j)
      else none))

/-- Preference order of the JavaScript regex engine between two possible
matches: an earlier start wins, and for equal starts the greedy `*`
makes the longer match win. -/
def preferLL (p q : Nat × Nat) : Nat × Nat :=
  if p.1 < q.1 ∨ (p.1 = q.1 ∧ q.2 < p.2) then p else q

/-- Selects the leftmost, then longest candidate — the match the
JavaScript regex engine returns. -/
def selectLL : List (Nat × Nat) → Option (Nat × Nat)
  | [] => none
  | p :: rest =>
    match selectLL rest with
    | none => some p
    | some q => some (preferLL p q)

/-- `aiResponse.match(/\[[\s\S]*\])/` in `router.post('/generate')` and
`router.post('/comment')`: the leftmost-longest fragment of the response
that starts with `'['` and ends with `']'`. -/
def jsArrayMatch (s : String) : Option String :=
  match selectLL (bracketCandidates s.toList) with
  | none => none
  | some (i, j) => some (String.mk ((s.toList.drop i).take (j - i + 1)))

/-- Index of the first `'['` of a character list, if any. -/
def firstLBracket : List Char → Option Nat
  | [] => none
  | c :: cs =>
    if c = '[' then some 0 else (firstLBracket cs).map (· + 1)

/-- Index of the last `']'` of a character list, if any. -/
def lastRBracket : List Char → Option Nat
  | [] => none
  | c :: cs =>
    match lastRBracket cs with
    | some k => some (k + 1)
    | none => if c = ']' then some 0 else none

/-- The extraction described by the specification: the substring starting
at the first `'['` of the response and ending at its last `']'`, when
that substring exists. -/
def specArrayExtract (s : String) : Option String :=
  match firstLBracket s.toList, lastRBracket s.toList with
  | some i, some j =>
    if i < j then some (String.mk ((s.toList.drop i).take (j - i + 1))) else none
  | _, _ => none

/-- The fields of one item of the JSON array returned by the AI for
`/generate` (`style`/`approach`, `text`, `emoji`/`tone`/`length`). -/
structure GenFields where
  label : String
  text : String
  extra : String
deriving Repr, DecidableEq

/-- One suggestion produced by `/generate`: the `uuidv4()` id plus the
item fields. -/
structure GenSuggestion where
  id : String
  label : String
  text : String
  extra : String
deriving Repr, DecidableEq

/-- The observable outcome of `POST /api/assistant/generate`.
`usedDefaultTemplates` records that the `catch (aiError)` branch ran
(the branch that logs `'AI生成内容解析失败，使用默认模板'` and fills in the
default templates). -/
structure GenResult where
  status : Nat
  success : Bool
  suggestions : List GenSuggestion
  usedDefaultTemplates : Bool
deriving Repr, DecidableEq

/-- The three fixed default templates of `/generate` for each supported
type, with `content` interpolated as in the JavaScript template
literals.  `uuid` is the `uuidv4()` supply. -/
def defaultTemplates (t : String) (content : String) (uuid : Nat → String) :
    List GenSuggestion :=
  if t = "moment" then
    [ { id := uuid 0, label := "文艺"
        text := content ++ "，如诗般的瞬间，定格在时光的褶皱里。", extra := "🌸" },
      { id := uuid 1, label := "搞笑"
        text := content ++ "！人生苦短，我选择快乐（和美食）😎", extra := "😂" },
      { id := uuid 2, label := "深沉"
        text := "关于" ++ content ++ "的思考：我们都是时间洪流中的过客，唯有此刻值得珍惜。"
        extra := "🌙" } ]
  else if t = "icebreaker" then
    [ { id := uuid 0, label := "兴趣共鸣"
        text := "嗨！看到你分享的内容，感觉我们对\"" ++ content ++ "\"有相似的看法。可以聊聊吗？"
        extra := "友好" },
      { id := uuid 1, label := "真诚提问"
        text := "你好！被你关于\"" ++ content ++ "\"的见解吸引了，能分享更多想法吗？我对这个话题也很感兴趣。"
        extra := "真诚" },
      { id := uuid 2, label := "轻松幽默"
        text := "哈喽！看到\"" ++ content ++ "\"这个话题，忍不住想说：终于遇到知音了！聊聊？🎉"
        extra := "轻松" } ]
  else
    [ { id := uuid 0, label := "简约"
        text := content ++ " | 探索生活的无限可能", extra := "短" },
      { id := uuid 1, label := "诗意"
        text := content ++ "，像风一样自由，像星辰一样闪耀。在浩瀚宇宙中寻找灵魂共鸣。"
        extra := "中" },
      { id := uuid 2, label := "真实"
        text := "一个热爱" ++ content ++ "的普通人，相信每个相遇都有它的意义。期待与你分享生活中的小确幸。"
        extra := "长" } ]

/-- The AI stage of `/generate` once validation has passed: try the AI
call, extract the array fragment, parse it and attach fresh ids; any
failure falls back to the default templates inside `catch (aiError)`. -/
def generateAIStage (t c : String) (aiResult : Except Unit String)
    (parse : String → Option (List GenFields)) (uuid : Nat → String) : GenResult :=
  match aiResult with
  | .error _ =>
    { status := 200, success := true
      suggestions := defaultTemplates t c uuid, usedDefaultTemplates := true }
  | .ok s =>
    match jsArrayMatch s with
    | none =>
      { status := 200, success := true
        suggestions := defaultTemplates t c uuid, usedDefaultTemplates := true }
    | some fragment =>
      match parse fragment with
      | none =>
        { status := 200, success := true
          suggestions := defaultTemplates t c uuid, usedDefaultTemplates := true }
      | some items =>
        { status := 200, success := true
          suggestions := jsMapWithIndex (fun i f =>
            { id := uuid i, label := f.label, text := f.text, extra := f.extra }) 0 items
          usedDefaultTemplates := false }

/-- The `POST /api/assistant/generate` route of `assistant.js`.

* `content`/`ty` are the request body fields;
* `aiResult` is the outcome of `callAIModel` (`Except.error` when the
  HTTP call threw, `Except.ok` the raw response text otherwise);
* `parse` is the `JSON.parse` oracle on the extracted array fragment
  (`none` when `JSON.parse` throws);
* `uuid` is the `uuidv4()` supply. -/
def generateRoute (content ty : Option String) (aiResult : Except Unit String)
    (parse : String → Option (List GenFields)) (uuid : Nat → String) : GenResult :=
  if jsStrFalsy content || jsStrFalsy ty then
    { status := 400, success := false, suggestions := [], usedDefaultTemplates := false }
  else
    let c := content.getD ""
    let t := ty.getD ""
    if t ≠ "moment" ∧ t ≠ "icebreaker" ∧ t ≠ "bio" then
      { status := 400, success := false, suggestions := [], usedDefaultTemplates := false }
    else generateAIStage t c aiResult parse uuid

/- ===================== assistant.js: POST /api/assistant/suggest ===================== -/

/-- A message of the `conversation` array sent to `/suggest`. -/
structure Msg where
  content : String
deriving Repr, DecidableEq

/-- A topic of the parsed AI answer for `/suggest`. -/
structure SuggestTopic where
  category : String
  question : String
deriving Repr, DecidableEq

/-- The parsed AI answer for `/suggest`: the `topics` and `tips` fields,
each possibly missing or not an array. -/
structure SuggestAIData where
  topics : Option (List SuggestTopic)
  tips : Option (List String)
deriving Repr, DecidableEq

/-- One suggestion produced by `/suggest`; only the fields the claims
inspect are kept (`id`, the `type` tag and the `content` headline). -/
structure Suggestion where
  id : String
  ty : String
  priority : String
  content : String
deriving Repr, DecidableEq

/-- The five fallback topics of `/suggest`. -/
def defaultSuggestTopics : List SuggestTopic :=
  [ { category := "深度交流", question := "如果可以拥有一项超能力，你会选择什么？为什么？" },
    { category := "兴趣探索", question := "最近有没有发现什么有趣的事物或新爱好？" },
    { category := "价值观", question := "你觉得人生中最重要的三件事是什么？" },
    { category := "生活方式", question := "理想中的周末是怎样度过的？" },
    { category := "未来憧憬", question := "五年后的自己，你希望成为什么样的人？" } ]

/-- `conversation[messageCount - 1]?.content || ''` — the last message
content, or the empty string for an empty conversation. -/
def lastMessageContent (msgs : List Msg) : String :=
  match msgs.getLast? with
  | some m => m.content
  | none => ""

/-- The suggestions accumulated by `/suggest` before the closing
additions: topic/tip suggestions converted from the parsed AI answer
when it was obtained, or the message-count dependent default suggestion
otherwise. -/
def suggestBase (msgs : List Msg) (ai : Option SuggestAIData) (rand : Nat)
    (uuid : Nat → String) : List Suggestion :=
  let messageCount := msgs.length
  match ai with
  | some aiData =>
    let fromTopics :=
      match aiData.topics with
      | some ts => jsMapWithIndex (fun i topic =>
          { id := uuid i, ty := "topic", priority := "high"
            content := topic.category ++ "话题" }) 0 ts
      | none => []
    match aiData.tips with
    | some _ => fromTopics ++
        [{ id := uuid fromTopics.length, ty := "tip", priority := "medium"
           content := "对话技巧" }]
    | none => fromTopics
  | none =>
    if messageCount < 5 then
      [{ id := uuid 0, ty := "topic", priority := "high"
         content := "尝试分享一个有趣的个人经历，让对话更生动" }]
    else if messageCount < 10 then
      let randomTopic := (defaultSuggestTopics.get? (rand % 5)).getD
        { category := "", question := "" }
      [{ id := uuid 0, ty := "deepening", priority := "medium"
         content := "深化对话：" ++ randomTopic.category }]
    else
      [{ id := uuid 0, ty := "activity", priority := "high"
         content := "对话已经很深入了！可以尝试约线下见面或共同参加活动" }]

/-- The `情绪分析建议` step of `/suggest`: a `response` suggestion is
pushed exactly when the last message contains `'？'` or `'?'`. -/
def suggestWithResponse (msgs : List Msg) (base : List Suggestion)
    (uuid : Nat → String) : List Suggestion :=
  if jsIncludes (lastMessageContent msgs) "？" ||
      jsIncludes (lastMessageContent msgs) "?" then
    base ++ [{ id := uuid base.length, ty := "response", priority := "urgent"
               content := "对方提出了问题，及时回应会让对话更流畅" }]
  else base

/-- The `POST /api/assistant/suggest` route of `assistant.js`.

* `conversation` is `none` when the body field is missing or not an
  array (the `!conversation || !Array.isArray(conversation)` guard);
* `ai` is the parsed AI answer, `none` when the call failed, no
  `\{[\s\S]*\}` fragment matched, or `JSON.parse` threw;
* `rand` stands for `Math.floor(Math.random() * topics.length)`;
* `uuid` is the `uuidv4()` supply.

Returns the HTTP status, the `success` flag and the suggestion list. -/
def suggestRoute (conversation : Option (List Msg)) (ai : Option SuggestAIData)
    (rand : Nat) (uuid : Nat → String) : Nat × Bool × List Suggestion :=
  match conversation with
  | none => (400, false, [])
  | some msgs =>
    let base := suggestBase msgs ai rand uuid
    let withResponse := suggestWithResponse msgs base uuid
    let final := withResponse ++
      [{ id := uuid withResponse.length, ty := "interactive", priority := "low"
         content := "让对话更有趣" }]
    (200, true, final)

/- ===================== assistant.js: POST /api/profile/analyze ===================== -/

/-- One dimension of the personality vector. -/
structure Dim where
  dimension : String
  score : Int
deriving Repr, DecidableEq

/-- The object parsed from the AI answer of `/analyze`.  Each field is
`none` when it is absent from the parsed JSON (JavaScript `undefined`);
list fields are kept verbatim even when empty, mirroring `x || []` where
an empty array is truthy. -/
structure AIAnalysis where
  interests : Option (List String)
  values : Option (List String)
  communicationStyle : Option String
  emotionTendency : Option String
  personalityVector : Option (List Dim)
  summary : Option String
deriving Repr, DecidableEq

/-- The optional `userData` body field of `/analyze`. -/
structure UserData where
  interests : Option (List String)
  values : Option (List String)
deriving Repr, DecidableEq

/-- The interest dictionary of `extractInterests` in `assistant.js`. -/
def interestKeywords : List (String × List String) :=
  [ ("哲学", ["存在", "意义", "真理", "思考", "本质", "哲学"]),
    ("科技", ["AI", "人工智能", "技术", "编程", "未来", "科技"]),
    ("艺术", ["音乐", "电影", "画", "美", "创作", "艺术"]),
    ("旅行", ["旅行", "探险", "世界", "风景", "文化"]),
    ("阅读", ["书", "阅读", "文学", "故事", "知识"]),
    ("运动", ["运动", "健身", "跑步", "瑜伽", "活力"]),
    ("美食", ["美食", "料理", "餐厅", "烹饪", "味道"]),
    ("摄影", ["摄影", "照片", "镜头", "光影", "记录"]) ]

/-- The value dictionary of `analyzeValues` in `assistant.js`. -/
def valueKeywords : List (String × List String) :=
  [ ("自由", ["自由", "独立", "选择", "自主"]),
    ("真诚", ["真实", "诚实", "坦率", "真诚"]),
    ("探索", ["探索", "好奇", "发现", "冒险"]),
    ("成长", ["成长", "进步", "学习", "提升"]),
    ("连接", ["连接", "共鸣", "理解", "陪伴"]),
    ("创造", ["创造", "创新", "想象", "艺术"]) ]

/-- Adding an element to a JavaScript `Set`: kept once, in insertion
order. -/
def jsSetAdd (s : List String) (x : String) : List String :=
  if x ∈ s then s else s ++ [x]

/-- `new Set(init)` — the initial elements in insertion order, first
occurrence kept. -/
def jsSetNew (init : List String) : List String :=
  init.foldl jsSetAdd []

/-- JavaScript `content.toLowerCase()`, character by character. -/
def jsToLower (s : String) : String :=
  String.mk (s.toList.map Char.toLower)

/-- Whether some keyword of `kws` occurs in the lower-cased content of
moment `m`: `keywords.some(kw => content.includes(kw))` after
`content.toLowerCase()`. -/
def momentMatches (m : MomentRow) (kws : List String) : Bool :=
  kws.any (fun kw => jsIncludes (jsToLower m.content) kw)

/-- The `Set` built by `extractInterests` before `slice(0, 8)`: the
additional interests followed by each dictionary category matched by
some moment, in insertion order. -/
def interestsUnion (moments : List MomentRow) (additionalInterests : List String) :
    List String :=
  moments.foldl (fun acc m =>
    interestKeywords.foldl (fun a p =>
      if momentMatches m p.2 then jsSetAdd a p.1 else a) acc)
    (jsSetNew additionalInterests)

/-- `extractInterests` from `assistant.js`: the interest `Set` truncated
by `Array.from(interests).slice(0, 8)`. -/
def extractInterests (moments : List MomentRow) (additionalInterests : List String) :
    List String :=
  (interestsUnion moments additionalInterests).take 8

/-- The `Set` built by `analyzeValues` before `slice(0, 6)`. -/
def valuesUnion (moments : List MomentRow) (additionalValues : List String) :
    List String :=
  moments.foldl (fun acc m =>
    valueKeywords.foldl (fun a p =>
      if momentMatches m p.2 then jsSetAdd a p.1 else a) acc)
    (jsSetNew additionalValues)

/-- `analyzeValues` from `assistant.js`: the value `Set` truncated by
`Array.from(values).slice(0, 6)`. -/
def analyzeValues (moments : List MomentRow) (additionalValues : List String) :
    List String :=
  (valuesUnion moments additionalValues).take 6

/-- `generatePersonalityVector` from `assistant.js`. -/
def generatePersonalityVector (interests values : List String)
    (style emotion : String) : List Dim :=
  [ { dimension := "开放性", score := min ((interests.length : Int) * 12) 100 },
    { dimension := "外向性", score := if style = "互动型" then 85 else 60 },
    { dimension := "责任心", score := if values.contains "成长" then 88 else 70 },
    { dimension := "宜人性", score := if emotion = "乐观积极" then 90 else 75 },
    { dimension := "情绪稳定性", score := if emotion = "情绪平衡" then 85 else 70 } ]

/-- `calculateMatchScore` from `assistant.js`:
`Math.round(vector.reduce((sum, v) => sum + v.score, 0) / vector.length)`. -/
def calculateMatchScore (vector : List Dim) : Int :=
  let scoreSum : Int := vector.foldl (fun sum v => sum + v.score) 0
  round ((scoreSum : ℚ) / (vector.length : ℚ))

/-- The `interests` variable of `/analyze` after the AI stage: `[]`
initially, replaced by `aiAnalysis.interests || []` when the AI call
succeeded and its answer contained a parsable JSON object. -/
def interestsFromAI (ai : Option AIAnalysis) : List String :=
  match ai with
  | none => []
  | some a => a.interests.getD []

/-- The `values` variable of `/analyze` after the AI stage. -/
def valuesFromAI (ai : Option AIAnalysis) : List String :=
  match ai with
  | none => []
  | some a => a.values.getD []

/-- The `personalityVector` variable of `/analyze` after the AI stage. -/
def pvFromAI (ai : Option AIAnalysis) : List Dim :=
  match ai with
  | none => []
  | some a => a.personalityVector.getD []

/-- The `communicationStyle` variable of `/analyze` after the AI stage:
`'探索型'` initially, `aiAnalysis.communicationStyle || '探索型'` on success. -/
def styleFromAI (ai : Option AIAnalysis) : String :=
  match ai with
  | none => "探索型"
  | some a => jsOrStr a.communicationStyle "探索型"

/-- The `emotionTendency` variable of `/analyze` after the AI stage. -/
def emotionFromAI (ai : Option AIAnalysis) : String :=
  match ai with
  | none => "情绪平衡"
  | some a => jsOrStr a.emotionTendency "情绪平衡"

/-- The `aiSummary` variable of `/analyze` after the AI stage. -/
def summaryFromAI (ai : Option AIAnalysis) : String :=
  match ai with
  | none => ""
  | some a => jsOrStr a.summary ""

/-- The `profileData` object assembled by `/analyze`. -/
structure ProfileData where
  interests : List String
  values : List String
  communication_style : String
  emotion_tendency : String
  personality_vector : List Dim
  match_score : Int
  ai_summary : String
deriving Repr, DecidableEq

/-- The analysis core of `POST /api/profile/analyze`: the AI stage
followed by the keyword fallbacks and the match-score computation.
`ai` is `none` when `callAIModel` returned `null` or no JSON object
could be extracted and parsed from its answer; `moments` is the result
of `momentOperations.findByUserId(userId)`. -/
def analyzeCore (ai : Option AIAnalysis) (moments : List MomentRow)
    (userData : Option UserData) : ProfileData :=
  let interests := interestsFromAI ai
  let values := valuesFromAI ai
  let communicationStyle := styleFromAI ai
  let emotionTendency := emotionFromAI ai
  let personalityVector := pvFromAI ai
  let interests :=
    if interests.length = 0 then
      extractInterests moments ((userData.bind (·.interests)).getD [])
    else interests
  let values :=
    if values.length = 0 then
      analyzeValues moments ((userData.bind (·.values)).getD [])
    else values
  let personalityVector :=
    if personalityVector.length = 0 then
      generatePersonalityVector interests values communicationStyle emotionTendency
    else personalityVector
  { interests := interests
    values := values
    communication_style := communicationStyle
    emotion_tendency := emotionTendency
    personality_vector := personalityVector
    match_score := calculateMatchScore personalityVector
    ai_summary := summaryFromAI ai }

/-- The condition under which `/analyze` executes at least one of its
keyword helpers: `extractInterests` runs when `interests.length === 0`
after the AI stage, `analyzeValues` when `values.length === 0`, and
`generatePersonalityVector` when `personalityVector.length === 0`. -/
def analyzeKeywordFallbackRan (ai : Option AIAnalysis) : Prop :=
  interestsFromAI ai = [] ∨ valuesFromAI ai = [] ∨ pvFromAI ai = []

/- ===================== postgres.js: soul_profiles and moments ===================== -/

/-- A row of the `soul_profiles` table: the generated `id`, the owner
`user_id` and the profile columns. -/
structure ProfileRow where
  id : String
  user_id : String
  profile : ProfileData
deriving Repr, DecidableEq

/-- `soulProfileOperations.findByUserId`:
`SELECT * FROM soul_profiles WHERE user_id = $1`. -/
def soulProfileFindByUserId (rows : List ProfileRow) (userId : String) :
    Option ProfileRow :=
  rows.find? (fun r => r.user_id == userId)

/-- `soulProfileOperations.update`: `UPDATE soul_profiles SET … WHERE
user_id = $n` — every row of the user receives the new profile columns. -/
def soulProfileUpdate (rows : List ProfileRow) (userId : String)
    (d : ProfileData) : List ProfileRow :=
  rows.map (fun r => if r.user_id == userId then { r with profile := d } else r)

/-- `soulProfileOperations.create`: `INSERT INTO soul_profiles …`. -/
def soulProfileCreate (rows : List ProfileRow) (row : ProfileRow) :
    List ProfileRow :=
  rows ++ [row]

/-- The persistence step of `POST /api/profile/analyze`: update the
existing row when `findByUserId` returns one, otherwise insert a new row
with a fresh `uuidv4()` id. -/
def analyzeSaveProfile (rows : List ProfileRow) (userId newId : String)
    (d : ProfileData) : List ProfileRow :=
  match soulProfileFindByUserId rows userId with
  | some _ => soulProfileUpdate rows userId d
  | none => soulProfileCreate rows { id := newId, user_id := userId, profile := d }

/-- Number of `soul_profiles` rows belonging to a user. -/
def profileRowCount (rows : List ProfileRow) (userId : String) : Nat :=
  (rows.filter (fun r => r.user_id == userId)).length

/-- The `ORDER BY created_at DESC` comparison on moment rows. -/
def momentDesc (a b : MomentRow) : Prop :=
  b.created_at ≤ a.created_at

instance : DecidableRel momentDesc := fun _ _ => Nat.decLe _ _

instance : IsTotal MomentRow momentDesc :=
  ⟨fun a b => Nat.le_total b.created_at a.created_at⟩

instance : IsTrans MomentRow momentDesc :=
  ⟨fun _ _ _ h1 h2 => Nat.le_trans h2 h1⟩

/-- `momentOperations.findByUserId(userId, limit)`:
`SELECT * FROM moments WHERE user_id = $1 ORDER BY created_at DESC LIMIT $2`.
The sort is modelled with insertion sort on the descending order. -/
def momentFindByUserId (rows : List MomentRow) (userId : String) (limit : Nat) :
    List MomentRow :=
  (((rows.filter (fun m => m.user_id == userId)).insertionSort momentDesc).take limit)

/-- `momentOperations.findByUserId(userId)` as called by `/analyze` and
`/api/moments/list` — without an explicit limit, so `limit = 20`. -/
def momentFindByUserIdDefault (rows : List MomentRow) (userId : String) :
    List MomentRow :=
  momentFindByUserId rows userId 20

/-- The `momentsText` variable of `/analyze`:
`moments.map(m => m.content).join('\n')` — the only moment data the AI
prompt contains. -/
def momentsText (moments : List MomentRow) : String :=
  String.intercalate "\n" (moments.map (·.content))

/-- The `/analyze` pipeline starting from the `moments` table: the route
fetches `momentOperations.findByUserId(userId)` and feeds the rows to
both the AI prompt and `analyzeCore`.  Returns the prompt fragment and
the stored profile data. -/
def analyzeFromDb (momentRows : List MomentRow) (userId : String)
    (ai : Option AIAnalysis) (userData : Option UserData) :
    String × ProfileData :=
  let moments := momentFindByUserIdDefault momentRows userId
  (momentsText moments, analyzeCore ai moments userData)

/- ===================== General lemmas ===================== -/

theorem foldl_count_add (l : List String) (p : String → Bool) (s : Int) :
    l.foldl (fun s w => if p w then s + 1 else s) s = s + (l.filter p).length := by
  induction l generalizing s with
  | nil => simp
  | cons a as ih =>
    rw [List.foldl_cons, List.filter_cons]
    by_cases h : p a = true
    · rw [if_pos h, if_pos h, ih, List.length_cons]
      push_cast
      ring
    · rw [if_neg h, if_neg h, ih]

theorem foldl_count_sub (l : List String) (p : String → Bool) (s : Int) :
    l.foldl (fun s w => if p w then s - 1 else s) s = s - (l.filter p).length := by
  induction l generalizing s with
  | nil => simp
  | cons a as ih =>
    rw [List.foldl_cons, List.filter_cons]
    by_cases h : p a = true
    · rw [if_pos h, if_pos h, ih, List.length_cons]
      push_cast
      ring
    · rw [if_neg h, if_neg h, ih]

/- ===================== Claim C2 ===================== -/

/-- Claim C2: `analyzeSentiment` returns `'positive'` exactly when the
number of distinct positive dictionary words occurring as substrings of
the text exceeds the number of distinct negative dictionary words
occurring as substrings, `'negative'` when it is smaller and
`'neutral'` when the two counts agree; and the `sentiment` stored with
every moment created by `POST /api/moments/create` is exactly this
value for the moment's content. -/
theorem claim_C2_sentiment (text : String) :
    (analyzeSentiment text = "positive" ↔
      (negativeWords.filter (jsIncludes text)).length <
        (positiveWords.filter (jsIncludes text)).length) ∧
    (analyzeSentiment text = "negative" ↔
      (positiveWords.filter (jsIncludes text)).length <
        (negativeWords.filter (jsIncludes text)).length) ∧
    (analyzeSentiment text = "neutral" ↔
      (positiveWords.filter (jsIncludes text)).length =
        (negativeWords.filter (jsIncludes text)).length) ∧
    (∀ (userId content contentType : Option String) (newId : String) (now : Nat)
        (row : MomentRow),
      (momentsCreateRoute userId content contentType newId now).2 = some row →
      row.sentiment = analyzeSentiment row.content) := by
  refine ⟨?_, ?_, ?_, ?_⟩
  · unfold analyzeSentiment
    simp only [foldl_count_add, foldl_count_sub]
    split_ifs with h1 h2
    · exact iff_of_true rfl (by omega)
    · exact iff_of_false (by decide) (by omega)
    · exact iff_of_false (by decide) (by omega)
  · unfold analyzeSentiment
    simp only [foldl_count_add, foldl_count_sub]
    split_ifs with h1 h2
    · exact iff_of_false (by decide) (by omega)
    · exact iff_of_true rfl (by omega)
    · exact iff_of_false (by decide) (by omega)
  · unfold analyzeSentiment
    simp only [foldl_count_add, foldl_count_sub]
    split_ifs with h1 h2
    · exact iff_of_false (by decide) (by omega)
    · exact iff_of_false (by decide) (by omega)
    · exact iff_of_true rfl (by omega)
  · intro userId content contentType newId now row hrow
    unfold momentsCreateRoute at hrow
    split_ifs at hrow with h
    rw [show ∀ (a : Nat) (b : Option MomentRow), (a, b).2 = b from fun _ _ => rfl] at hrow
    injection hrow with h2
    subst h2
    rfl

/-- Witness for C2 at a concrete created moment: the text
`'今天很开心也很累'` contains one positive and one negative dictionary
word, so the created row carries the sentiment `'neutral'` computed by
`analyzeSentiment`. -/
theorem claim_C2_sentiment_witness :
    ({ id := "m1", user_id := "u1", content := "今天很开心也很累",
       content_type := "text", sentiment := "neutral", keywords := [],
       created_at := 0 } : MomentRow).sentiment =
      analyzeSentiment "今天很开心也很累" := by
  exact (claim_C2_sentiment "今天很开心也很累").2.2.2 (some "u1")
    (some "今天很开心也很累") none "m1" 0
    { id := "m1", user_id := "u1", content := "今天很开心也很累",
      content_type := "text", sentiment := "neutral", keywords := [],
      created_at := 0 } (by decide)

/- ===================== Claim C7 ===================== -/

/-- Claim C7: `POST /api/users/register` answers 400 when username or
password is missing and 409 when the username already exists, creating
no user row in either case; on success it stores the bcrypt hash of the
password — never the plaintext — and returns the new user id and the
username.  `POST /api/users/login` answers 404 for an unknown username,
401 when the bcrypt comparison fails, and returns the user's id,
username, avatar and bio exactly when the comparison succeeds. -/
theorem claim_C7_register_login (users : List UserRow)
    (username password : Option String) (newId : String)
    (bhash : String → String) (bcompare : String → String → Bool) :
    ((username = none ∨ password = none) →
      registerRoute users username password newId bhash = (400, none, users) ∧
      loginRoute users username password bcompare = (400, none)) ∧
    (∀ u p, username = some u → password = some p → u ≠ "" → p ≠ "" →
      ((∃ r, findByUsername users u = some r) →
        registerRoute users username password newId bhash = (409, none, users)) ∧
      (findByUsername users u = none →
        registerRoute users username password newId bhash =
          (200, some (newId, u),
            users ++ [{ id := newId, username := u, password := bhash p,
                        avatar := avatarUrl newId, bio := defaultBio }]) ∧
        (bhash p ≠ p →
          ∀ r ∈ (registerRoute users username password newId bhash).2.2,
            r ∈ users ∨ r.password ≠ p)) ∧
      (findByUsername users u = none →
        loginRoute users username password bcompare = (404, none)) ∧
      (∀ user, findByUsername users u = some user →
        (bcompare p user.password = false →
          loginRoute users username password bcompare = (401, none)) ∧
        (bcompare p user.password = true →
          loginRoute users username password bcompare =
            (200, some { userId := user.id, username := user.username,
                         avatar := user.avatar, bio := user.bio })))) := by
  constructor
  · intro hmiss
    have hf : (jsStrFalsy username || jsStrFalsy password) = true := by
      rcases hmiss with h | h <;> subst h <;> simp [jsStrFalsy]
    unfold registerRoute loginRoute
    rw [if_pos hf, if_pos hf]
    exact ⟨rfl, rfl⟩
  · intro u p hu hp hune hpne
    subst hu; subst hp
    have hf : (jsStrFalsy (some u) || jsStrFalsy (some p)) = false := by
      simp [jsStrFalsy, hune, hpne]
    refine ⟨?_, ?_, ?_, ?_⟩
    · rintro ⟨r, hr⟩
      unfold registerRoute
      rw [if_neg (by simp [hf])]
      simp [hr]
    · intro hnone
      constructor
      · unfold registerRoute
        rw [if_neg (by simp [hf])]
        simp [hnone]
      · intro hbh r hr
        unfold registerRoute at hr
        rw [if_neg (by simp [hf])] at hr
        simp [hnone] at hr
        rcases hr with hmem | hmem
        · exact Or.inl hmem
        · right
          subst hmem
          exact hbh
    · intro hnone
      unfold loginRoute
      rw [if_neg (by simp [hf])]
      simp [hnone]
    · intro user huser
      constructor
      · intro hcmp
        unfold loginRoute
        rw [if_neg (by simp [hf])]
        simp [huser, hcmp]
      · intro hcmp
        unfold loginRoute
        rw [if_neg (by simp [hf])]
        simp [huser, hcmp]

/-- Witness for C7: a concrete run of registration on an empty table
followed by a login against the created row, with a toy bcrypt pair. -/
theorem claim_C7_register_login_witness :
    registerRoute [] (some "alice") (some "pw") "id1" (fun s => "#" ++ s) =
      (200, some ("id1", "alice"),
        [{ id := "id1", username := "alice", password := "#pw",
           avatar := avatarUrl "id1", bio := defaultBio }]) ∧
    loginRoute
        [{ id := "id1", username := "alice", password := "#pw",
           avatar := avatarUrl "id1", bio := defaultBio }]
        (some "alice") (some "pw") (fun p stored => stored == "#" ++ p) =
      (200, some { userId := "id1", username := "alice",
                   avatar := avatarUrl "id1", bio := defaultBio }) := by
  constructor
  · have h := ((claim_C7_register_login [] (some "alice") (some "pw") "id1"
      (fun s => "#" ++ s) (fun p stored => stored == "#" ++ p)).2 "alice" "pw"
      rfl rfl (by decide) (by decide)).2.1 (by decide)
    exact h.1
  · have h := ((claim_C7_register_login
      [{ id := "id1", username := "alice", password := "#pw",
         avatar := avatarUrl "id1", bio := defaultBio }]
      (some "alice") (some "pw") "id1"
      (fun s => "#" ++ s) (fun p stored => stored == "#" ++ p)).2 "alice" "pw"
      rfl rfl (by decide) (by decide)).2.2.2
      { id := "id1", username := "alice", password := "#pw",
        avatar := avatarUrl "id1", bio := defaultBio } (by decide)
    exact h.2 (by decide)

/- ===================== Claim C8 ===================== -/

theorem profileRowCount_update (rows : List ProfileRow) (uid u : String)
    (d : ProfileData) :
    profileRowCount (soulProfileUpdate rows uid d) u = profileRowCount rows u := by
  induction rows with
  | nil => rfl
  | cons r rs ih =>
    have hhead :
        (if (r.user_id == uid) = true
          then ({ r with profile := d } : ProfileRow) else r).user_id = r.user_id := by
      split_ifs <;> rfl
    unfold soulProfileUpdate at ih ⊢
    unfold profileRowCount at ih ⊢
    rw [List.map_cons, List.filter_cons, List.filter_cons, hhead]
    by_cases hu : (r.user_id == u) = true
    · rw [if_pos hu, if_pos hu, List.length_cons, List.length_cons, ih]
    · rw [if_neg hu, if_neg hu, ih]

theorem profileRowCount_append_one (rows : List ProfileRow) (row : ProfileRow)
    (u : String) :
    profileRowCount (rows ++ [row]) u =
      profileRowCount rows u + (if row.user_id == u then 1 else 0) := by
  unfold profileRowCount
  rw [List.filter_append, List.length_append]
  by_cases h : (row.user_id == u) = true <;> simp [List.filter_cons, h]

theorem profileRowCount_eq_zero_of_find_none (rows : List ProfileRow)
    (uid : String) (h : soulProfileFindByUserId rows uid = none) :
    profileRowCount rows uid = 0 := by
  unfold soulProfileFindByUserId at h
  unfold profileRowCount
  rw [List.length_eq_zero, List.filter_eq_nil_iff]
  intro r hr
  have := List.find?_eq_none.mp h r hr
  simpa using this

/-- Claim C8: `POST /api/profile/analyze` preserves "at most one
soul-profile row per user": when `soulProfileOperations.findByUserId`
returns a row the route updates in place (the table keeps its length),
and it inserts a new row with the fresh id only when no row exists, in
accordance with the `UNIQUE(user_id)` constraint of `soul_profiles`. -/
theorem claim_C8_profile_unique (rows : List ProfileRow) (userId newId : String)
    (d : ProfileData) :
    ((∀ u, profileRowCount rows u ≤ 1) →
      ∀ u, profileRowCount (analyzeSaveProfile rows userId newId d) u ≤ 1) ∧
    ((∃ r, soulProfileFindByUserId rows userId = some r) →
      analyzeSaveProfile rows userId newId d = soulProfileUpdate rows userId d ∧
      (analyzeSaveProfile rows userId newId d).length = rows.length) ∧
    (soulProfileFindByUserId rows userId = none →
      analyzeSaveProfile rows userId newId d =
        rows ++ [{ id := newId, user_id := userId, profile := d }]) := by
  refine ⟨?_, ?_, ?_⟩
  · intro hinv u
    unfold analyzeSaveProfile
    cases hfind : soulProfileFindByUserId rows userId with
    | some r =>
      rw [profileRowCount_update]
      exact hinv u
    | none =>
      unfold soulProfileCreate
      rw [profileRowCount_append_one]
      by_cases hu : (userId == u) = true
      · have : u = userId := (eq_of_beq hu).symm
        subst this
        rw [profileRowCount_eq_zero_of_find_none rows u hfind]
        simp [hu]
      · simp only [hu, if_false]
        simpa using hinv u
  · rintro ⟨r, hr⟩
    unfold analyzeSaveProfile
    rw [hr]
    refine ⟨rfl, ?_⟩
    unfold soulProfileUpdate
    exact List.length_map _ _
  · intro hnone
    unfold analyzeSaveProfile
    rw [hnone]
    rfl

/-- Witness for C8: starting from a table that satisfies the invariant
and already holds a row for user `u1`, the route updates in place and
every user still owns at most one row. -/
theorem claim_C8_profile_unique_witness :
    (∀ u, profileRowCount
      (analyzeSaveProfile
        [{ id := "p1", user_id := "u1",
           profile := { interests := [], values := [], communication_style := "",
                        emotion_tendency := "", personality_vector := [],
                        match_score := 0, ai_summary := "" } }]
        "u1" "p2"
        { interests := ["旅行"], values := [], communication_style := "探索型",
          emotion_tendency := "情绪平衡", personality_vector := [],
          match_score := 0, ai_summary := "" }) u ≤ 1) ∧
    (analyzeSaveProfile
        [{ id := "p1", user_id := "u1",
           profile := { interests := [], values := [], communication_style := "",
                        emotion_tendency := "", personality_vector := [],
                        match_score := 0, ai_summary := "" } }]
        "u1" "p2"
        { interests := ["旅行"], values := [], communication_style := "探索型",
          emotion_tendency := "情绪平衡", personality_vector := [],
          match_score := 0, ai_summary := "" }).length = 1 := by
  have h := claim_C8_profile_unique
    [{ id := "p1", user_id := "u1",
       profile := { interests := [], values := [], communication_style := "",
                    emotion_tendency := "", personality_vector := [],
                    match_score := 0, ai_summary := "" } }]
    "u1" "p2"
    { interests := ["旅行"], values := [], communication_style := "探索型",
      emotion_tendency := "情绪平衡", personality_vector := [],
      match_score := 0, ai_summary := "" }
  refine ⟨h.1 ?_, ?_⟩
  · intro u
    unfold profileRowCount
    by_cases hu : ("u1" == u) = true <;> simp [List.filter_cons, hu]
  · have h2 := (h.2.1 ⟨_, rfl⟩).2
    simpa using h2

/- ===================== Claim C9 ===================== -/

/-- Claim C9: profile analysis reads at most the 20 most recent moments
of the user.  `momentOperations.findByUserId` without an explicit limit
(`LIMIT` defaulting to 20) returns at most 20 rows of that user, sorted
by `created_at` descending; any moment of the user that is left out is
no more recent than every returned row and is only left out when the 20
slots are full; and the `/analyze` pipeline — the prompt text as well as
the keyword fallback — is a function of exactly these rows. -/
theorem claim_C9_moment_limit (rows : List MomentRow) (userId : String) :
    (momentFindByUserIdDefault rows userId).length ≤ 20 ∧
    (∀ m ∈ momentFindByUserIdDefault rows userId, m.user_id = userId) ∧
    List.Pairwise momentDesc (momentFindByUserIdDefault rows userId) ∧
    (∀ y ∈ rows, y.user_id = userId →
      y ∉ momentFindByUserIdDefault rows userId →
      (momentFindByUserIdDefault rows userId).length = 20 ∧
      ∀ x ∈ momentFindByUserIdDefault rows userId, y.created_at ≤ x.created_at) ∧
    (∀ (ai : Option AIAnalysis) (userData : Option UserData),
      analyzeFromDb rows userId ai userData =
        (momentsText (momentFindByUserIdDefault rows userId),
         analyzeCore ai (momentFindByUserIdDefault rows userId) userData)) := by
  have hsorted : List.Pairwise momentDesc
      ((rows.filter (fun m => m.user_id == userId)).insertionSort momentDesc) :=
    List.sorted_insertionSort momentDesc _
  refine ⟨?_, ?_, ?_, ?_, ?_⟩
  · unfold momentFindByUserIdDefault momentFindByUserId
    rw [List.length_take]
    exact min_le_left _ _
  · intro m hm
    unfold momentFindByUserIdDefault momentFindByUserId at hm
    have hm2 := List.mem_of_mem_take hm
    have hm3 := (List.mem_insertionSort momentDesc).mp hm2
    have := List.of_mem_filter hm3
    simpa using this
  · exact List.Pairwise.sublist (List.take_sublist _ _) hsorted
  · intro y hy hyuid hynot
    have hyf : y ∈ rows.filter (fun m => m.user_id == userId) :=
      List.mem_filter.mpr ⟨hy, by simp [hyuid]⟩
    have hys : y ∈ (rows.filter (fun m => m.user_id == userId)).insertionSort momentDesc :=
      (List.mem_insertionSort momentDesc).mpr hyf
    set sorted := (rows.filter (fun m => m.user_id == userId)).insertionSort momentDesc
      with hsorted_def
    have hsplit : sorted.take 20 ++ sorted.drop 20 = sorted := List.take_append_drop 20 sorted
    have hydrop : y ∈ sorted.drop 20 := by
      rcases List.mem_append.mp (by rw [hsplit]; exact hys) with h | h
      · exact absurd h hynot
      · exact h
    have hlen : 20 < sorted.length := by
      have hne : sorted.drop 20 ≠ [] := List.ne_nil_of_mem hydrop
      have := List.length_drop 20 sorted
      rcases Nat.lt_or_ge 20 sorted.length with h | h
      · exact h
      · exact absurd (List.drop_eq_nil_of_le h) hne
    constructor
    · unfold momentFindByUserIdDefault momentFindByUserId
      rw [List.length_take, ← hsorted_def]
      omega
    · intro x hx
      have hpair := (List.pairwise_append.mp (by rw [hsplit]; exact hsorted)).2.2
      exact hpair x hx y hydrop
  · intro ai userData
    rfl

/-- Witness for C9: a table holding two moments of user `u1` (and one of
another user) yields both of `u1`'s rows, newest first. -/
theorem claim_C9_moment_limit_witness :
    (momentFindByUserIdDefault
        [{ id := "m1", user_id := "u1", content := "a", content_type := "text",
           sentiment := "", keywords := [], created_at := 1 },
         { id := "m2", user_id := "u2", content := "b", content_type := "text",
           sentiment := "", keywords := [], created_at := 5 },
         { id := "m3", user_id := "u1", content := "c", content_type := "text",
           sentiment := "", keywords := [], created_at := 3 }] "u1").length ≤ 20 ∧
    (∀ m ∈ momentFindByUserIdDefault
        [{ id := "m1", user_id := "u1", content := "a", content_type := "text",
           sentiment := "", keywords := [], created_at := 1 },
         { id := "m2", user_id := "u2", content := "b", content_type := "text",
           sentiment := "", keywords := [], created_at := 5 },
         { id := "m3", user_id := "u1", content := "c", content_type := "text",
           sentiment := "", keywords := [], created_at := 3 }] "u1",
      m.user_id = "u1") := by
  have h := claim_C9_moment_limit
    [{ id := "m1", user_id := "u1", content := "a", content_type := "text",
       sentiment := "", keywords := [], created_at := 1 },
     { id := "m2", user_id := "u2", content := "b", content_type := "text",
       sentiment := "", keywords := [], created_at := 5 },
     { id := "m3", user_id := "u1", content := "c", content_type := "text",
       sentiment := "", keywords := [], created_at := 3 }] "u1"
  exact ⟨h.1, h.2.1⟩

/- ===================== Claim C5 ===================== -/

theorem foldl_add_score (vec : List Dim) (s : Int) :
    vec.foldl (fun sum v => sum + v.score) s = s + (vec.map (·.score)).sum := by
  induction vec generalizing s with
  | nil => simp
  | cons d ds ih =>
    rw [List.foldl_cons, ih, List.map_cons, List.sum_cons]
    ring

theorem score_sum_bounds (vec : List Dim)
    (hb : ∀ d ∈ vec, 0 ≤ d.score ∧ d.score ≤ 100) :
    0 ≤ (vec.map (·.score)).sum ∧ (vec.map (·.score)).sum ≤ 100 * vec.length := by
  induction vec with
  | nil => simp
  | cons d ds ih =>
    have hd := hb d (List.mem_cons_self d ds)
    have hih := ih (fun x hx => hb x (List.mem_cons_of_mem d hx))
    rw [List.map_cons, List.sum_cons, List.length_cons]
    constructor
    · linarith [hd.1, hih.1]
    · push_cast
      linarith [hd.2, hih.2]

theorem round_bounds {x : ℚ} (h0 : 0 ≤ x) (h1 : x ≤ 100) :
    0 ≤ round x ∧ round x ≤ 100 := by
  constructor
  · have h := sub_half_lt_round x
    have h2 : (-1 : ℚ) < ((round x : ℤ) : ℚ) := by linarith
    have h3 : (-1 : ℤ) < round x := by exact_mod_cast h2
    omega
  · have h := round_le_add_half x
    have h2 : ((round x : ℤ) : ℚ) < 101 := by push_cast at h ⊢; linarith
    have h3 : (round x : ℤ) < 101 := by exact_mod_cast h2
    omega

theorem calculateMatchScore_bounds (vec : List Dim) (hne : vec ≠ [])
    (hb : ∀ d ∈ vec, 0 ≤ d.score ∧ d.score ≤ 100) :
    0 ≤ calculateMatchScore vec ∧ calculateMatchScore vec ≤ 100 := by
  have hsum := score_sum_bounds vec hb
  have hlen : 0 < vec.length := List.length_pos.mpr hne
  simp only [calculateMatchScore]
  rw [foldl_add_score, zero_add]
  have hx0 : (0 : ℚ) ≤ (((vec.map (·.score)).sum : Int) : ℚ) / (vec.length : ℚ) := by
    apply div_nonneg
    · exact_mod_cast hsum.1
    · positivity
  have hx1 : (((vec.map (·.score)).sum : Int) : ℚ) / (vec.length : ℚ) ≤ 100 := by
    rw [div_le_iff₀ (by exact_mod_cast hlen)]
    exact_mod_cast hsum.2
  exact round_bounds hx0 hx1

/-- Claim C5: `calculateMatchScore` is the arithmetic mean of the
dimension scores rounded to the nearest integer; in the keyword
fallback `generatePersonalityVector` the `开放性` score is
`min(12 × number of interests, 100)` while the other four scores come
from the fixed set `{60, 70, 75, 85, 88, 90}`, so every fallback
dimension score and the resulting match score lie between 0 and 100. -/
theorem claim_C5_match_score (interests values : List String)
    (style emotion : String) :
    (∀ vec : List Dim, vec ≠ [] →
      calculateMatchScore vec =
        round ((((vec.map (·.score)).sum : Int) : ℚ) / (vec.length : ℚ))) ∧
    ((generatePersonalityVector interests values style emotion).head?.map
        (·.score) = some (min ((interests.length : Int) * 12) 100)) ∧
    (∀ d ∈ (generatePersonalityVector interests values style emotion).drop 1,
      d.score = 60 ∨ d.score = 70 ∨ d.score = 75 ∨ d.score = 85 ∨
      d.score = 88 ∨ d.score = 90) ∧
    (∀ d ∈ generatePersonalityVector interests values style emotion,
      0 ≤ d.score ∧ d.score ≤ 100) ∧
    (0 ≤ calculateMatchScore (generatePersonalityVector interests values style emotion) ∧
      calculateMatchScore (generatePersonalityVector interests values style emotion) ≤ 100) := by
  have hmem : ∀ d ∈ generatePersonalityVector interests values style emotion,
      0 ≤ d.score ∧ d.score ≤ 100 := by
    intro d hd
    simp only [generatePersonalityVector, List.mem_cons, List.not_mem_nil,
      or_false] at hd
    rcases hd with h | h | h | h | h <;> subst h
    · constructor
      · simp only [le_min_iff]
        constructor
        · positivity
        · norm_num
      · exact min_le_right _ _
    · split_ifs <;> norm_num
    · split_ifs <;> norm_num
    · split_ifs <;> norm_num
    · split_ifs <;> norm_num
  refine ⟨?_, rfl, ?_, hmem, ?_⟩
  · intro vec _
    simp only [calculateMatchScore]
    rw [foldl_add_score, zero_add]
  · intro d hd
    simp only [generatePersonalityVector, List.drop_succ_cons, List.drop_zero,
      List.mem_cons, List.not_mem_nil, or_false] at hd
    rcases hd with h | h | h | h <;> subst h <;> split_ifs <;> simp
  · exact calculateMatchScore_bounds _ (by simp [generatePersonalityVector]) hmem

/-- Witness for C5: a concrete one-dimensional vector has match score
equal to its single score, and the fallback vector for one interest has
its match score inside the `[0, 100]` range. -/
theorem claim_C5_match_score_witness :
    calculateMatchScore [{ dimension := "开放性", score := 64 }] = 64 ∧
    0 ≤ calculateMatchScore
        (generatePersonalityVector ["旅行"] [] "互动型" "情绪平衡") ∧
    calculateMatchScore
        (generatePersonalityVector ["旅行"] [] "互动型" "情绪平衡") ≤ 100 := by
  have h := claim_C5_match_score ["旅行"] [] "互动型" "情绪平衡"
  refine ⟨?_, h.2.2.2.2.1, h.2.2.2.2.2⟩
  rw [h.1 [{ dimension := "开放性", score := 64 }] (by simp)]
  norm_num

/- ===================== Claim C10 ===================== -/

theorem suggestBase_ty (msgs : List Msg) (ai : Option SuggestAIData)
    (rand : Nat) (uuid : Nat → String) :
    ∀ sg ∈ suggestBase msgs ai rand uuid,
      sg.ty = "topic" ∨ sg.ty = "tip" ∨ sg.ty = "deepening" ∨ sg.ty = "activity" := by
  intro sg hsg
  cases ai with
  | none =>
    simp only [suggestBase] at hsg
    split_ifs at hsg with h1 h2 <;> simp at hsg <;> rw [hsg] <;> simp
  | some aiData =>
    cases htop : aiData.topics with
    | none =>
      cases htip : aiData.tips with
      | none => simp [suggestBase, htop, htip, jsMapWithIndex] at hsg
      | some tips =>
        simp [suggestBase, htop, htip, jsMapWithIndex] at hsg
        rw [hsg]
        simp
    | some ts =>
      cases htip : aiData.tips with
      | none =>
        simp only [suggestBase, htop, htip] at hsg
        obtain ⟨k, a, _, hb⟩ := mem_jsMapWithIndex hsg
        rw [hb]
        simp
      | some tips =>
        simp only [suggestBase, htop, htip] at hsg
        rcases List.mem_append.mp hsg with h | h
        · obtain ⟨k, a, _, hb⟩ := mem_jsMapWithIndex h
          rw [hb]
          simp
        · simp at h
          rw [h]
          simp

/-- Claim C10: for every `/suggest` request whose `conversation` field
is an array (possibly empty), the route answers success with a
non-empty suggestion list whose final element is the `interactive`
suggestion, and a `response`-type suggestion appears exactly when the
last message contains `'？'` or `'?'`; a missing or non-array
`conversation` yields HTTP 400 with `success` false. -/
theorem claim_C10_suggest (conversation : Option (List Msg))
    (ai : Option SuggestAIData) (rand : Nat) (uuid : Nat → String) :
    (conversation = none →
      suggestRoute conversation ai rand uuid = (400, false, [])) ∧
    (∀ msgs, conversation = some msgs →
      (suggestRoute conversation ai rand uuid).1 = 200 ∧
      (suggestRoute conversation ai rand uuid).2.1 = true ∧
      (suggestRoute conversation ai rand uuid).2.2 ≠ [] ∧
      ((suggestRoute conversation ai rand uuid).2.2.getLast?.map (·.ty) =
        some "interactive") ∧
      ((∃ sg ∈ (suggestRoute conversation ai rand uuid).2.2, sg.ty = "response") ↔
        (jsIncludes (lastMessageContent msgs) "？" = true ∨
         jsIncludes (lastMessageContent msgs) "?" = true))) := by
  constructor
  · rintro rfl
    rfl
  · rintro msgs rfl
    have hroute : suggestRoute (some msgs) ai rand uuid =
        (200, true,
          suggestWithResponse msgs (suggestBase msgs ai rand uuid) uuid ++
            [{ id := uuid (suggestWithResponse msgs
                  (suggestBase msgs ai rand uuid) uuid).length,
               ty := "interactive", priority := "low",
               content := "让对话更有趣" }]) := rfl
    rw [hroute]
    refine ⟨rfl, rfl, by simp, by simp [List.getLast?_concat], ?_⟩
    constructor
    · rintro ⟨sg, hsg, hty⟩
      rcases List.mem_append.mp hsg with h | h
      · by_cases hc : (jsIncludes (lastMessageContent msgs) "？" ||
            jsIncludes (lastMessageContent msgs) "?") = true
        · simpa using hc
        · rw [show suggestWithResponse msgs (suggestBase msgs ai rand uuid) uuid =
              suggestBase msgs ai rand uuid from by
            unfold suggestWithResponse; rw [if_neg hc]] at h
          rcases suggestBase_ty msgs ai rand uuid sg h with h' | h' | h' | h' <;>
            rw [hty] at h' <;> exact absurd h' (by decide)
      · simp only [List.mem_singleton] at h
        rw [h] at hty
        simp at hty
    · intro hc
      have hc' : (jsIncludes (lastMessageContent msgs) "？" ||
          jsIncludes (lastMessageContent msgs) "?") = true := by
        rcases hc with h | h <;> simp [h]
      refine ⟨{ id := uuid (suggestBase msgs ai rand uuid).length,
                ty := "response", priority := "urgent",
                content := "对方提出了问题，及时回应会让对话更流畅" }, ?_, rfl⟩
      apply List.mem_append_left
      rw [show suggestWithResponse msgs (suggestBase msgs ai rand uuid) uuid =
          suggestBase msgs ai rand uuid ++
            [{ id := uuid (suggestBase msgs ai rand uuid).length,
               ty := "response", priority := "urgent",
               content := "对方提出了问题，及时回应会让对话更流畅" }] from by
        unfold suggestWithResponse; rw [if_pos hc']]
      exact List.mem_append_right _ (by simp)

/-- Witness for C10: a missing conversation answers 400; a one-message
conversation ending in `'你好吗？'` answers 200 and contains a
`response` suggestion. -/
theorem claim_C10_suggest_witness :
    suggestRoute none none 0 (fun n => toString n) = (400, false, []) ∧
    (suggestRoute (some [{ content := "你好吗？" }]) none 0
      (fun n => toString n)).1 = 200 ∧
    (∃ sg ∈ (suggestRoute (some [{ content := "你好吗？" }]) none 0
      (fun n => toString n)).2.2, sg.ty = "response") := by
  have h0 := (claim_C10_suggest none none 0 (fun n => toString n)).1 rfl
  have h := (claim_C10_suggest (some [{ content := "你好吗？" }]) none 0
    (fun n => toString n)).2 [{ content := "你好吗？" }] rfl
  exact ⟨h0, h.1, h.2.2.2.2.mpr (Or.inl (by decide))⟩

/- ===================== Regex-match lemmas ===================== -/

theorem selectLL_ne_none (p : Nat × Nat) (rest : List (Nat × Nat)) :
    selectLL (p :: rest) ≠ none := by
  rw [selectLL]
  cases selectLL rest <;> simp

theorem selectLL_spec :
    ∀ (l : List (Nat × Nat)) (p : Nat × Nat), selectLL l = some p →
      p ∈ l ∧ ∀ q ∈ l, p.1 < q.1 ∨ (p.1 = q.1 ∧ q.2 ≤ p.2) := by
  intro l
  induction l with
  | nil => intro p h; simp [selectLL] at h
  | cons a rest ih =>
    intro p h
    rw [selectLL] at h
    cases hr : selectLL rest with
    | none =>
      rw [hr] at h
      have hrest : rest = [] := by
        cases rest with
        | nil => rfl
        | cons b bs => exact absurd hr (selectLL_ne_none b bs)
      subst hrest
      injection h with h'
      subst h'
      refine ⟨List.mem_singleton.mpr rfl, ?_⟩
      intro q hq
      rw [List.mem_singleton] at hq
      subst hq
      right
      exact ⟨rfl, le_refl _⟩
    | some q =>
      rw [hr] at h
      have hq := ih q hr
      injection h with h'
      unfold preferLL at h'
      by_cases hcond : a.1 < q.1 ∨ (a.1 = q.1 ∧ q.2 < a.2)
      · rw [if_pos hcond] at h'
        subst h'
        refine ⟨List.mem_cons_self a rest, ?_⟩
        intro r hr2
        rcases List.mem_cons.mp hr2 with h2 | h2
        · subst h2
          right
          exact ⟨rfl, le_refl _⟩
        · have h3 := hq.2 r h2
          rcases hcond with hc | hc <;> rcases h3 with h4 | h4 <;> omega
      · rw [if_neg hcond] at h'
        subst h'
        push_neg at hcond
        refine ⟨List.mem_cons_of_mem a hq.1, ?_⟩
        intro r hr2
        rcases List.mem_cons.mp hr2 with h2 | h2
        · subst h2
          omega
        · exact hq.2 r h2

theorem firstLBracket_none :
    ∀ (cs : List Char), firstLBracket cs = none → ∀ k, cs.get? k ≠ some '[' := by
  intro cs
  induction cs with
  | nil => intro _ k; simp
  | cons c cs ih =>
    intro h k
    rw [firstLBracket] at h
    by_cases hc : c = '['
    · rw [if_pos hc] at h
      simp at h
    · rw [if_neg hc] at h
      have hf : firstLBracket cs = none := by
        cases hx : firstLBracket cs with
        | none => rfl
        | some j => rw [hx] at h; simp at h
      cases k with
      | zero =>
        simp only [List.get?_cons_zero]
        intro h2
        exact hc (Option.some_inj.mp h2)
      | succ k' => simpa using ih hf k'

theorem firstLBracket_spec :
    ∀ (cs : List Char) (i : Nat), firstLBracket cs = some i →
      cs.get? i = some '[' ∧ ∀ k, cs.get? k = some '[' → i ≤ k := by
  intro cs
  induction cs with
  | nil => intro i h; simp [firstLBracket] at h
  | cons c cs ih =>
    intro i h
    rw [firstLBracket] at h
    by_cases hc : c = '['
    · rw [if_pos hc] at h
      injection h with h'
      subst h'
      exact ⟨by simp [hc], fun k _ => Nat.zero_le k⟩
    · rw [if_neg hc] at h
      cases hf : firstLBracket cs with
      | none => rw [hf] at h; simp at h
      | some j =>
        rw [hf] at h
        simp only [Option.map_some'] at h
        injection h with h'
        subst h'
        have hj := ih j hf
        refine ⟨by simpa using hj.1, ?_⟩
        intro k hk
        cases k with
        | zero =>
          simp only [List.get?_cons_zero, Option.some_inj] at hk
          exact absurd hk hc
        | succ k' =>
          have := hj.2 k' (by simpa using hk)
          omega

theorem lastRBracket_none :
    ∀ (cs : List Char), lastRBracket cs = none → ∀ k, cs.get? k ≠ some ']' := by
  intro cs
  induction cs with
  | nil => intro _ k; simp
  | cons c cs ih =>
    intro h k
    rw [lastRBracket] at h
    cases hl : lastRBracket cs with
    | some m => rw [hl] at h; simp at h
    | none =>
      rw [hl] at h
      by_cases hc : c = ']'
      · rw [if_pos hc] at h
        simp at h
      · cases k with
        | zero =>
          simp only [List.get?_cons_zero]
          intro h2
          exact hc (Option.some_inj.mp h2)
        | succ k' => simpa using ih hl k'

theorem lastRBracket_spec :
    ∀ (cs : List Char) (j : Nat), lastRBracket cs = some j →
      cs.get? j = some ']' ∧ ∀ k, cs.get? k = some ']' → k ≤ j := by
  intro cs
  induction cs with
  | nil => intro j h; simp [lastRBracket] at h
  | cons c cs ih =>
    intro j h
    rw [lastRBracket] at h
    cases hl : lastRBracket cs with
    | some m =>
      rw [hl] at h
      injection h with h'
      subst h'
      have hm := ih m hl
      refine ⟨by simpa using hm.1, ?_⟩
      intro k hk
      cases k with
      | zero => omega
      | succ k' =>
        have := hm.2 k' (by simpa using hk)
        omega
    | none =>
      rw [hl] at h
      by_cases hc : c = ']'
      · rw [if_pos hc] at h
        injection h with h'
        subst h'
        refine ⟨by simp [hc], ?_⟩
        intro k hk
        cases k with
        | zero => exact le_refl 0
        | succ k' =>
          exact absurd (by simpa using hk) (lastRBracket_none cs hl k')
      · rw [if_neg hc] at h
        simp at h

theorem mem_bracketCandidates {cs : List Char} {i j : Nat} :
    (i, j) ∈ bracketCandidates cs ↔
      cs.get? i = some '[' ∧ cs.get? j = some ']' ∧ i < j := by
  unfold bracketCandidates
  constructor
  · intro h
    obtain ⟨a, _, hb⟩ := List.mem_flatMap.mp h
    obtain ⟨b, _, hcond⟩ := List.mem_filterMap.mp hb
    split_ifs at hcond with hcnd
    · injection hcond with h1
      injection h1 with ha hb2
      subst ha
      subst hb2
      exact hcnd
  · rintro ⟨h1, h2, h3⟩
    apply List.mem_flatMap.mpr
    refine ⟨i, List.mem_range.mpr ?_, ?_⟩
    · obtain ⟨hlt, _⟩ := List.get?_eq_some.mp h1
      exact hlt
    · apply List.mem_filterMap.mpr
      refine ⟨j, List.mem_range.mpr ?_, ?_⟩
      · obtain ⟨hlt, _⟩ := List.get?_eq_some.mp h2
        exact hlt
      · rw [if_pos ⟨h1, h2, h3⟩]

/-- The leftmost-longest match of the array pattern is exactly the
fragment from the first `'['` of the string to its last `']'`. -/
theorem jsArrayMatch_eq_spec (s : String) : jsArrayMatch s = specArrayExtract s := by
  unfold jsArrayMatch specArrayExtract
  cases hsel : selectLL (bracketCandidates s.toList) with
  | none =>
    have hempty : bracketCandidates s.toList = [] := by
      cases hbc : bracketCandidates s.toList with
      | nil => rfl
      | cons p rest => rw [hbc] at hsel; exact absurd hsel (selectLL_ne_none p rest)
    cases hfb : firstLBracket s.toList with
    | none => rfl
    | some i =>
      cases hlb : lastRBracket s.toList with
      | none => rfl
      | some j =>
        by_cases hij : i < j
        · have hf := firstLBracket_spec _ _ hfb
          have hl := lastRBracket_spec _ _ hlb
          have hmem : (i, j) ∈ bracketCandidates s.toList :=
            mem_bracketCandidates.mpr ⟨hf.1, hl.1, hij⟩
          rw [hempty] at hmem
          simp at hmem
        · simp [hij]
  | some p =>
    obtain ⟨i, j⟩ := p
    obtain ⟨hmem, hbest⟩ := selectLL_spec _ (i, j) hsel
    obtain ⟨hpi, hpj, hpij⟩ := mem_bracketCandidates.mp hmem
    cases hfb : firstLBracket s.toList with
    | none => exact absurd hpi (firstLBracket_none _ hfb i)
    | some i0 =>
      cases hlb : lastRBracket s.toList with
      | none => exact absurd hpj (lastRBracket_none _ hlb j)
      | some j0 =>
        have hf := firstLBracket_spec _ _ hfb
        have hl := lastRBracket_spec _ _ hlb
        have hi0le : i0 ≤ i := hf.2 i hpi
        have hjle : j ≤ j0 := hl.2 j hpj
        have hcand0 : (i0, j0) ∈ bracketCandidates s.toList :=
          mem_bracketCandidates.mpr ⟨hf.1, hl.1, by omega⟩
        have hb := hbest (i0, j0) hcand0
        dsimp only at hb
        have hii : i = i0 := by omega
        have hjj : j = j0 := by omega
        subst hii
        subst hjj
        simp [hpij]

theorem generateRoute_valid (c t : String) (hc : c ≠ "")
    (ht : t = "moment" ∨ t = "icebreaker" ∨ t = "bio")
    (aiResult : Except Unit String) (parse : String → Option (List GenFields))
    (uuid : Nat → String) :
    generateRoute (some c) (some t) aiResult parse uuid =
      generateAIStage t c aiResult parse uuid := by
  unfold generateRoute
  have ht' : t ≠ "" := by rcases ht with h | h | h <;> subst h <;> decide
  rw [if_neg (by simp [jsStrFalsy, hc, ht'])]
  rcases ht with h | h | h <;> subst h <;>
    simp only [Option.getD_some] <;> rw [if_neg (by simp)]

/- ===================== Claim C6 ===================== -/

/-- Claim C6: for every AI response string handled by
`POST /api/assistant/generate`, the JSON extraction selects exactly the
substring starting at the first `'['` and ending at the last `']'` of
the response (the greedy leftmost-longest match of the array pattern),
and the default templates are used if and only if the response contains
no such substring or `JSON.parse` of that substring throws. -/
theorem claim_C6_extraction (s : String) :
    (jsArrayMatch s = specArrayExtract s) ∧
    (∀ (c t : String) (parse : String → Option (List GenFields))
        (uuid : Nat → String),
      c ≠ "" → (t = "moment" ∨ t = "icebreaker" ∨ t = "bio") →
      ((generateRoute (some c) (some t) (.ok s) parse uuid).usedDefaultTemplates
          = true ↔
        (jsArrayMatch s = none ∨
          ∃ m, jsArrayMatch s = some m ∧ parse m = none))) := by
  refine ⟨jsArrayMatch_eq_spec s, ?_⟩
  intro c t parse uuid hc ht
  rw [generateRoute_valid c t hc ht]
  unfold generateAIStage
  cases hm : jsArrayMatch s with
  | none => simp [hm]
  | some frag =>
    cases hp : parse frag with
    | none => simp [hm, hp]
    | some items => simp [hm, hp]

/-- Witness for C6 at concrete inputs: the extraction equation for a
mixed string and the defaults-iff equivalence for a response without
brackets. -/
theorem claim_C6_extraction_witness :
    jsArrayMatch "说明[1, 2]完" = specArrayExtract "说明[1, 2]完" ∧
    ((generateRoute (some "海") (some "bio") (.ok "abc")
        (fun _ => (none : Option (List GenFields)))
        (fun n => String.mk (List.replicate n 'u'))).usedDefaultTemplates = true ↔
      (jsArrayMatch "abc" = none ∨
        ∃ m, jsArrayMatch "abc" = some m ∧
          (fun _ => (none : Option (List GenFields))) m = none)) := by
  exact ⟨(claim_C6_extraction "说明[1, 2]完").1,
    (claim_C6_extraction "abc").2 "海" "bio" (fun _ => none)
      (fun n => String.mk (List.replicate n 'u')) (by decide)
      (Or.inr (Or.inr rfl))⟩

/- ===================== Claim C3 ===================== -/

/-- Claim C3: for every `/generate` request with non-empty content and a
supported type, if the AI call throws, or its response contains no
array-pattern fragment, or the fragment fails to parse, the route still
answers 200 with `success` true and exactly the 3 fixed default
templates for that type, each template text containing the submitted
content verbatim and each carrying an id drawn freshly from the uuid
supply. -/
theorem claim_C3_generate_fallback (c t : String) (aiResult : Except Unit String)
    (parse : String → Option (List GenFields)) (uuid : Nat → String)
    (hc : c ≠ "") (ht : t = "moment" ∨ t = "icebreaker" ∨ t = "bio")
    (hfail : aiResult = .error () ∨
      ∃ s, aiResult = .ok s ∧ (jsArrayMatch s = none ∨
        ∃ m, jsArrayMatch s = some m ∧ parse m = none)) :
    (generateRoute (some c) (some t) aiResult parse uuid).status = 200 ∧
    (generateRoute (some c) (some t) aiResult parse uuid).success = true ∧
    (generateRoute (some c) (some t) aiResult parse uuid).suggestions =
      defaultTemplates t c uuid ∧
    (defaultTemplates t c uuid).length = 3 ∧
    (∀ sg ∈ defaultTemplates t c uuid, jsIncludes sg.text c = true) ∧
    (defaultTemplates t c uuid).map (·.id) = [uuid 0, uuid 1, uuid 2] ∧
    ((uuid 0 ≠ uuid 1 ∧ uuid 0 ≠ uuid 2 ∧ uuid 1 ≠ uuid 2) →
      ((defaultTemplates t c uuid).map (·.id)).Nodup) := by
  have hroute : generateRoute (some c) (some t) aiResult parse uuid =
      { status := 200, success := true, suggestions := defaultTemplates t c uuid
        usedDefaultTemplates := true } := by
    rw [generateRoute_valid c t hc ht]
    unfold generateAIStage
    rcases hfail with h | ⟨s, hs, hrest⟩
    · subst h
      rfl
    · subst hs
      rcases hrest with hm | ⟨m, hm, hp⟩
      · simp [hm]
      · simp [hm, hp]
  rw [hroute]
  refine ⟨rfl, rfl, rfl, ?_, ?_, ?_, ?_⟩
  · rcases ht with h | h | h <;> subst h <;> simp [defaultTemplates]
  · intro sg hsg
    rcases ht with h | h | h <;> subst h <;>
      simp only [defaultTemplates, if_true, if_false, String.reduceEq,
        reduceIte, List.mem_cons, List.not_mem_nil, or_false] at hsg <;>
      rcases hsg with h1 | h1 | h1 <;> subst h1 <;>
      first
        | exact jsIncludes_surround "" c _
        | exact jsIncludes_surround "关于" c _
        | exact jsIncludes_surround "嗨！看到你分享的内容，感觉我们对\"" c _
        | exact jsIncludes_surround "你好！被你关于\"" c _
        | exact jsIncludes_surround "哈喽！看到\"" c _
        | exact jsIncludes_surround "一个热爱" c _
  · rcases ht with h | h | h <;> subst h <;> simp [defaultTemplates]
  · rintro ⟨h01, h02, h12⟩
    rcases ht with h | h | h <;> subst h <;>
      simp [defaultTemplates, List.nodup_cons, h01, h02, h12]

/-- Witness for C3: the AI call threw for a `moment` request with
content `'旅行'`; the route answers the three default templates with
distinct ids. -/
theorem claim_C3_generate_fallback_witness :
    (generateRoute (some "旅行") (some "moment") (.error ())
        (fun _ => (none : Option (List GenFields)))
        (fun n => String.mk (List.replicate n 'u'))).status = 200 ∧
    (generateRoute (some "旅行") (some "moment") (.error ())
        (fun _ => (none : Option (List GenFields)))
        (fun n => String.mk (List.replicate n 'u'))).suggestions =
      defaultTemplates "moment" "旅行" (fun n => String.mk (List.replicate n 'u')) ∧
    ((defaultTemplates "moment" "旅行"
        (fun n => String.mk (List.replicate n 'u'))).map (·.id)).Nodup := by
  have h := claim_C3_generate_fallback "旅行" "moment" (.error ())
    (fun _ => none) (fun n => String.mk (List.replicate n 'u'))
    (by decide) (Or.inl rfl) (Or.inl rfl)
  exact ⟨h.1, h.2.2.1, h.2.2.2.2.2.2 ⟨by decide, by decide, by decide⟩⟩

/- ===================== JavaScript Set lemmas ===================== -/

theorem mem_jsSetAdd {s : List String} {x y : String} :
    y ∈ jsSetAdd s x ↔ y ∈ s ∨ y = x := by
  unfold jsSetAdd
  split_ifs with h
  · constructor
    · exact Or.inl
    · rintro (h2 | h2)
      · exact h2
      · rw [h2]
        exact h
  · simp [List.mem_append]

theorem nodup_jsSetAdd {s : List String} {x : String} (h : s.Nodup) :
    (jsSetAdd s x).Nodup := by
  unfold jsSetAdd
  split_ifs with hx
  · exact h
  · simp [List.nodup_append, h, hx]

theorem mem_foldl_jsSetAdd (l : List String) (acc : List String) (y : String) :
    y ∈ l.foldl jsSetAdd acc ↔ y ∈ acc ∨ y ∈ l := by
  induction l generalizing acc with
  | nil => simp
  | cons a as ih =>
    rw [List.foldl_cons, ih, mem_jsSetAdd, List.mem_cons]
    tauto

theorem mem_jsSetNew (init : List String) (y : String) :
    y ∈ jsSetNew init ↔ y ∈ init := by
  unfold jsSetNew
  rw [mem_foldl_jsSetAdd]
  simp

theorem nodup_foldl_jsSetAdd (l : List String) (acc : List String)
    (h : acc.Nodup) : (l.foldl jsSetAdd acc).Nodup := by
  induction l generalizing acc with
  | nil => exact h
  | cons a as ih =>
    rw [List.foldl_cons]
    exact ih _ (nodup_jsSetAdd h)

theorem nodup_jsSetNew (init : List String) : (jsSetNew init).Nodup :=
  nodup_foldl_jsSetAdd init [] List.nodup_nil

theorem mem_dictFold (dict : List (String × List String)) (m : MomentRow)
    (acc : List String) (y : String) :
    y ∈ dict.foldl (fun a p => if momentMatches m p.2 then jsSetAdd a p.1 else a)
        acc ↔
      y ∈ acc ∨ ∃ p ∈ dict, momentMatches m p.2 = true ∧ y = p.1 := by
  induction dict generalizing acc with
  | nil => simp
  | cons q qs ih =>
    rw [List.foldl_cons]
    by_cases hq : momentMatches m q.2 = true
    · rw [if_pos hq, ih, mem_jsSetAdd]
      constructor
      · rintro ((h | h) | ⟨p, hp, hm2, hy⟩)
        · exact Or.inl h
        · exact Or.inr ⟨q, List.mem_cons_self q qs, hq, h⟩
        · exact Or.inr ⟨p, List.mem_cons_of_mem q hp, hm2, hy⟩
      · rintro (h | ⟨p, hp, hm2, hy⟩)
        · exact Or.inl (Or.inl h)
        · rcases List.mem_cons.mp hp with h2 | h2
          · subst h2
            exact Or.inl (Or.inr hy)
          · exact Or.inr ⟨p, h2, hm2, hy⟩
    · rw [if_neg hq, ih]
      constructor
      · rintro (h | ⟨p, hp, hm2, hy⟩)
        · exact Or.inl h
        · exact Or.inr ⟨p, List.mem_cons_of_mem q hp, hm2, hy⟩
      · rintro (h | ⟨p, hp, hm2, hy⟩)
        · exact Or.inl h
        · rcases List.mem_cons.mp hp with h2 | h2
          · subst h2
            exact absurd hm2 hq
          · exact Or.inr ⟨p, h2, hm2, hy⟩

theorem nodup_dictFold (dict : List (String × List String)) (m : MomentRow)
    (acc : List String) (h : acc.Nodup) :
    (dict.foldl (fun a p => if momentMatches m p.2 then jsSetAdd a p.1 else a)
      acc).Nodup := by
  induction dict generalizing acc with
  | nil => exact h
  | cons q qs ih =>
    rw [List.foldl_cons]
    by_cases hq : momentMatches m q.2 = true
    · rw [if_pos hq]
      exact ih _ (nodup_jsSetAdd h)
    · rw [if_neg hq]
      exact ih _ h

theorem mem_momentsFold (dict : List (String × List String))
    (moments : List MomentRow) (acc : List String) (y : String) :
    y ∈ moments.foldl (fun acc m => dict.foldl
        (fun a p => if momentMatches m p.2 then jsSetAdd a p.1 else a) acc) acc ↔
      y ∈ acc ∨ ∃ m ∈ moments, ∃ p ∈ dict, momentMatches m p.2 = true ∧ y = p.1 := by
  induction moments generalizing acc with
  | nil => simp
  | cons mm ms ih =>
    rw [List.foldl_cons, ih, mem_dictFold]
    constructor
    · rintro ((h | ⟨p, hp, hm2, hy⟩) | ⟨m2, hm2', p, hp, hmm, hy⟩)
      · exact Or.inl h
      · exact Or.inr ⟨mm, List.mem_cons_self mm ms, p, hp, hm2, hy⟩
      · exact Or.inr ⟨m2, List.mem_cons_of_mem mm hm2', p, hp, hmm, hy⟩
    · rintro (h | ⟨m2, hm2', p, hp, hmm, hy⟩)
      · exact Or.inl (Or.inl h)
      · rcases List.mem_cons.mp hm2' with h2 | h2
        · subst h2
          exact Or.inl (Or.inr ⟨p, hp, hmm, hy⟩)
        · exact Or.inr ⟨m2, h2, p, hp, hmm, hy⟩

theorem nodup_momentsFold (dict : List (String × List String))
    (moments : List MomentRow) (acc : List String) (h : acc.Nodup) :
    (moments.foldl (fun acc m => dict.foldl
        (fun a p => if momentMatches m p.2 then jsSetAdd a p.1 else a) acc)
      acc).Nodup := by
  induction moments generalizing acc with
  | nil => exact h
  | cons mm ms ih =>
    rw [List.foldl_cons]
    exact ih _ (nodup_dictFold dict mm acc h)

theorem mem_interestsUnion (moments : List MomentRow) (add : List String)
    (y : String) :
    y ∈ interestsUnion moments add ↔
      y ∈ add ∨ ∃ p ∈ interestKeywords, y = p.1 ∧
        ∃ m ∈ moments, ∃ kw ∈ p.2, jsIncludes (jsToLower m.content) kw = true := by
  unfold interestsUnion
  rw [mem_momentsFold, mem_jsSetNew]
  constructor
  · rintro (h | ⟨m, hm, p, hp, hmm, hy⟩)
    · exact Or.inl h
    · obtain ⟨kw, hkw, hinc⟩ := List.any_eq_true.mp hmm
      exact Or.inr ⟨p, hp, hy, m, hm, kw, hkw, hinc⟩
  · rintro (h | ⟨p, hp, hy, m, hm, kw, hkw, hinc⟩)
    · exact Or.inl h
    · exact Or.inr ⟨m, hm, p, hp, List.any_eq_true.mpr ⟨kw, hkw, hinc⟩, hy⟩

theorem mem_valuesUnion (moments : List MomentRow) (add : List String)
    (y : String) :
    y ∈ valuesUnion moments add ↔
      y ∈ add ∨ ∃ p ∈ valueKeywords, y = p.1 ∧
        ∃ m ∈ moments, ∃ kw ∈ p.2, jsIncludes (jsToLower m.content) kw = true := by
  unfold valuesUnion
  rw [mem_momentsFold, mem_jsSetNew]
  constructor
  · rintro (h | ⟨m, hm, p, hp, hmm, hy⟩)
    · exact Or.inl h
    · obtain ⟨kw, hkw, hinc⟩ := List.any_eq_true.mp hmm
      exact Or.inr ⟨p, hp, hy, m, hm, kw, hkw, hinc⟩
  · rintro (h | ⟨p, hp, hy, m, hm, kw, hkw, hinc⟩)
    · exact Or.inl h
    · exact Or.inr ⟨m, hm, p, hp, List.any_eq_true.mpr ⟨kw, hkw, hinc⟩, hy⟩

/- ===================== Claim C4 ===================== -/

/-- Claim C4: when the AI analysis yields no interests (resp. no
values), the profile's interests are the `Set` of the caller-provided
additional interests plus every dictionary category one of whose
keywords occurs as a substring of some lower-cased moment content,
truncated to at most 8 items; the values are built the same way from
the six-category value dictionary and truncated to at most 6 items. -/
theorem claim_C4_interest_value_fallback (ai : Option AIAnalysis)
    (moments : List MomentRow) (ud : Option UserData) (add addV : List String) :
    (interestsFromAI ai = [] →
      (analyzeCore ai moments ud).interests =
        extractInterests moments ((ud.bind (·.interests)).getD [])) ∧
    (valuesFromAI ai = [] →
      (analyzeCore ai moments ud).values =
        analyzeValues moments ((ud.bind (·.values)).getD [])) ∧
    (extractInterests moments add = (interestsUnion moments add).take 8) ∧
    (∀ y, y ∈ interestsUnion moments add ↔
      y ∈ add ∨ ∃ p ∈ interestKeywords, y = p.1 ∧
        ∃ m ∈ moments, ∃ kw ∈ p.2, jsIncludes (jsToLower m.content) kw = true) ∧
    (interestsUnion moments add).Nodup ∧
    (extractInterests moments add).length ≤ 8 ∧
    (analyzeValues moments addV = (valuesUnion moments addV).take 6) ∧
    (∀ y, y ∈ valuesUnion moments addV ↔
      y ∈ addV ∨ ∃ p ∈ valueKeywords, y = p.1 ∧
        ∃ m ∈ moments, ∃ kw ∈ p.2, jsIncludes (jsToLower m.content) kw = true) ∧
    (valuesUnion moments addV).Nodup ∧
    (analyzeValues moments addV).length ≤ 6 := by
  refine ⟨?_, ?_, rfl, mem_interestsUnion moments add, ?_, ?_, rfl,
    mem_valuesUnion moments addV, ?_, ?_⟩
  · intro h
    show (if (interestsFromAI ai).length = 0 then
        extractInterests moments ((ud.bind (·.interests)).getD [])
      else interestsFromAI ai) = _
    rw [h]
    simp
  · intro h
    show (if (valuesFromAI ai).length = 0 then
        analyzeValues moments ((ud.bind (·.values)).getD [])
      else valuesFromAI ai) = _
    rw [h]
    simp
  · exact nodup_momentsFold interestKeywords moments (jsSetNew add)
      (nodup_jsSetNew add)
  · unfold extractInterests
    rw [List.length_take]
    exact min_le_left _ _
  · exact nodup_momentsFold valueKeywords moments (jsSetNew addV)
      (nodup_jsSetNew addV)
  · unfold analyzeValues
    rw [List.length_take]
    exact min_le_left _ _

/-- Witness for C4: with no AI analysis and one moment mentioning
`'哲学'`, the profile interests are the additional interest `'音乐'`
followed by the matched category `'哲学'`. -/
theorem claim_C4_interest_value_fallback_witness :
    (analyzeCore none
        [{ id := "m1", user_id := "u1", content := "今天读哲学", content_type := "text",
           sentiment := "", keywords := [], created_at := 0 }]
        (some { interests := some ["音乐"], values := none })).interests =
      extractInterests
        [{ id := "m1", user_id := "u1", content := "今天读哲学", content_type := "text",
           sentiment := "", keywords := [], created_at := 0 }] ["音乐"] ∧
    "哲学" ∈ interestsUnion
        [{ id := "m1", user_id := "u1", content := "今天读哲学", content_type := "text",
           sentiment := "", keywords := [], created_at := 0 }] ["音乐"] := by
  have h := claim_C4_interest_value_fallback none
    [{ id := "m1", user_id := "u1", content := "今天读哲学", content_type := "text",
       sentiment := "", keywords := [], created_at := 0 }]
    (some { interests := some ["音乐"], values := none }) ["音乐"] []
  refine ⟨h.1 rfl, ?_⟩
  refine (h.2.2.2.1 "哲学").mpr (Or.inr ?_)
  refine ⟨("哲学", ["存在", "意义", "真理", "思考", "本质", "哲学"]), by decide, rfl,
    ?_⟩
  exact ⟨_, List.mem_cons_self _ _, "哲学", by decide, by decide⟩

/- ===================== Claim C1 ===================== -/

/-- The parse of a successful AI answer whose JSON object carries
`interests` as the empty array but non-empty `values` and
`personalityVector` fields. -/
def emptyInterestsAnalysis : AIAnalysis :=
  { interests := some []
    values := some ["自由"]
    communicationStyle := some "理性型"
    emotionTendency := some "乐观积极"
    personalityVector := some [{ dimension := "开放性", score := 80 }]
    summary := some "s" }

/-- The parse of the AI answer whose JSON object carries `interests` as
the empty array and no other recognised field. -/
def bareEmptyAnalysis : AIAnalysis :=
  { interests := some []
    values := none
    communicationStyle := none
    emotionTendency := none
    personalityVector := none
    summary := none }

/-- Counterexample to claim C1 as stated: the keyword fallbacks of
`/api/profile/analyze` are not reserved to failed or unparsable AI
calls.  A successfully parsed AI answer whose `interests` field is the
empty array (here the parse of a JSON object with `interests: []`)
still sends the route into `extractInterests`, because the fallback
test is `interests.length === 0`, not "the AI call failed". -/
theorem claim_C1_counterexample :
    ¬ (∀ (ai : Option AIAnalysis) (_moments : List MomentRow)
        (_ud : Option UserData), analyzeKeywordFallbackRan ai → ai = none) := by
  intro h
  have := h (some emptyInterestsAnalysis) [] none (Or.inl rfl)
  simp at this

/-- Claim C1 (amended): each keyword fallback of `/analyze` runs exactly
when the corresponding field is empty after the AI stage — always when
the AI call failed or its output was unparsable, but also when the AI
succeeded and the parsed object lacks the field or carries it as an
empty array; and `POST /api/moments/create` applies `analyzeSentiment`
and `extractKeywords` to every stored moment unconditionally, with no
AI call at all. -/
theorem claim_C1_amended (ai : Option AIAnalysis) (moments : List MomentRow)
    (ud : Option UserData) :
    (ai = none →
      interestsFromAI ai = [] ∧ valuesFromAI ai = [] ∧ pvFromAI ai = []) ∧
    (interestsFromAI ai = [] ↔ ai = none ∨
      ∃ a, ai = some a ∧ (a.interests = none ∨ a.interests = some [])) ∧
    (valuesFromAI ai = [] ↔ ai = none ∨
      ∃ a, ai = some a ∧ (a.values = none ∨ a.values = some [])) ∧
    (pvFromAI ai = [] ↔ ai = none ∨
      ∃ a, ai = some a ∧
        (a.personalityVector = none ∨ a.personalityVector = some [])) ∧
    ((analyzeCore ai moments ud).interests =
      (if (interestsFromAI ai).length = 0 then
        extractInterests moments ((ud.bind (·.interests)).getD [])
      else interestsFromAI ai)) ∧
    ((analyzeCore ai moments ud).values =
      (if (valuesFromAI ai).length = 0 then
        analyzeValues moments ((ud.bind (·.values)).getD [])
      else valuesFromAI ai)) ∧
    (∀ (userId content contentType : Option String) (newId : String) (now : Nat)
        (row : MomentRow),
      (momentsCreateRoute userId content contentType newId now).2 = some row →
      row.sentiment = analyzeSentiment row.content ∧
      row.keywords = extractKeywords row.content) := by
  refine ⟨?_, ?_, ?_, ?_, rfl, rfl, ?_⟩
  · rintro rfl
    exact ⟨rfl, rfl, rfl⟩
  · cases ai with
    | none => simp [interestsFromAI]
    | some a =>
      cases ha : a.interests with
      | none => simp [interestsFromAI, ha]
      | some l => simp [interestsFromAI, ha]
  · cases ai with
    | none => simp [valuesFromAI]
    | some a =>
      cases ha : a.values with
      | none => simp [valuesFromAI, ha]
      | some l => simp [valuesFromAI, ha]
  · cases ai with
    | none => simp [pvFromAI]
    | some a =>
      cases ha : a.personalityVector with
      | none => simp [pvFromAI, ha]
      | some l => simp [pvFromAI, ha]
  · intro userId content contentType newId now row hrow
    unfold momentsCreateRoute at hrow
    split_ifs at hrow with h
    rw [show ∀ (a : Nat) (b : Option MomentRow), (a, b).2 = b from fun _ _ => rfl]
      at hrow
    injection hrow with h2
    subst h2
    exact ⟨rfl, rfl⟩

/-- Witness for C1 (amended): the AI failure case triggers every
fallback; a parsed answer with an empty `interests` array also triggers
the interest fallback; and a concrete created moment carries the
keyword-computed sentiment. -/
theorem claim_C1_amended_witness :
    interestsFromAI (none : Option AIAnalysis) = [] ∧
    interestsFromAI (some bareEmptyAnalysis) = [] ∧
    ({ id := "m1", user_id := "u1", content := "爱旅行", content_type := "text",
       sentiment := "positive", keywords := ["旅行"], created_at := 0 } :
        MomentRow).sentiment = analyzeSentiment "爱旅行" := by
  have h1 := (claim_C1_amended none [] none).1 rfl
  have h2 := (claim_C1_amended (some bareEmptyAnalysis) [] none).2.1.mpr
    (Or.inr ⟨_, rfl, Or.inr rfl⟩)
  have h3 := (claim_C1_amended none [] none).2.2.2.2.2.2 (some "u1")
    (some "爱旅行") none "m1" 0
    { id := "m1", user_id := "u1", content := "爱旅行", content_type := "text",
      sentiment := "positive", keywords := ["旅行"], created_at := 0 } (by decide)
  exact ⟨h1.1, h2, h3.1⟩
